import Mathlib

/-!
A verification development for the transform stage of the newspaper-article
ETL pipeline (`transform/main.py`), together with the row-to-record mapping
of the load stage (`load/article.py`, `load/main.py`).

The table (`pandas.DataFrame`) is embedded as a `List Row`, in row order; a
missing value (`NaN`) is `none`.  A stage that can raise an uncaught Python
exception is embedded as a function into `Option`, with `none` for the
aborted invocation.  `hashlib.md5(...).hexdigest()` is embedded by a full
MD5 implementation over `Nat` byte values (RFC 1321), and
`urllib.parse.urlparse(url).netloc` by the corresponding netloc extraction.
`nltk.word_tokenize` is modelled for the plain text this pipeline handles:
whitespace separates tokens, maximal alphanumeric runs are word tokens, and
any other visible character is its own punctuation token.
-/

/-- UTF-8 encoding of a single character, as a list of byte values
(models Python's `str.encode()` per character). -/
def utf8_char_bytes (c : Char) : List Nat :=
  let n := c.toNat
  if n < 128 then [n]
  else if n < 2048 then [192 + n / 64, 128 + n % 64]
  else if n < 65536 then [224 + n / 4096, 128 + n / 64 % 64, 128 + n % 64]
  else [240 + n / 262144, 128 + n / 4096 % 64, 128 + n / 64 % 64, 128 + n % 64]

/-- UTF-8 byte encoding of a string (models Python's `url.encode()`). -/
def utf8_bytes (s : String) : List Nat :=
  (s.data.map utf8_char_bytes).flatten

/-- Addition modulo 2^32. -/
def add32 (a b : Nat) : Nat := (a + b) % 4294967296

/-- Bitwise complement on 32-bit words. -/
def not32 (a : Nat) : Nat := Nat.xor (a % 4294967296) 4294967295

/-- Left rotation of a 32-bit word by `c` bits. -/
def rotl32 (x c : Nat) : Nat :=
  (x % 4294967296 * 2 ^ c) % 4294967296 + x % 4294967296 / 2 ^ (32 - c)

/-- The 64 MD5 sine-derived round constants (RFC 1321). -/
def md5_K : List Nat :=
  [0xd76aa478, 0xe8c7b756, 0x242070db, 0xc1bdceee,
   0xf57c0faf, 0x4787c62a, 0xa8304613, 0xfd469501,
   0x698098d8, 0x8b44f7af, 0xffff5bb1, 0x895cd7be,
   0x6b901122, 0xfd987193, 0xa679438e, 0x49b40821,
   0xf61e2562, 0xc040b340, 0x265e5a51, 0xe9b6c7aa,
   0xd62f105d, 0x02441453, 0xd8a1e681, 0xe7d3fbc8,
   0x21e1cde6, 0xc33707d6, 0xf4d50d87, 0x455a14ed,
   0xa9e3e905, 0xfcefa3f8, 0x676f02d9, 0x8d2a4c8a,
   0xfffa3942, 0x8771f681, 0x6d9d6122, 0xfde5380c,
   0xa4beea44, 0x4bdecfa9, 0xf6bb4b60, 0xbebfbc70,
   0x289b7ec6, 0xeaa127fa, 0xd4ef3085, 0x04881d05,
   0xd9d4d039, 0xe6db99e5, 0x1fa27cf8, 0xc4ac5665,
   0xf4292244, 0x432aff97, 0xab9423a7, 0xfc93a039,
   0x655b59c3, 0x8f0ccc92, 0xffeff47d, 0x85845dd1,
   0x6fa87e4f, 0xfe2ce6e0, 0xa3014314, 0x4e0811a1,
   0xf7537e82, 0xbd3af235, 0x2ad7d2bb, 0xeb86d391]

/-- The 64 MD5 per-round left-rotation amounts (RFC 1321). -/
def md5_S : List Nat :=
  [7, 12, 17, 22, 7, 12, 17, 22, 7, 12, 17, 22, 7, 12, 17, 22,
   5, 9, 14, 20, 5, 9, 14, 20, 5, 9, 14, 20, 5, 9, 14, 20,
   4, 11, 16, 23, 4, 11, 16, 23, 4, 11, 16, 23, 4, 11, 16, 23,
   6, 10, 15, 21, 6, 10, 15, 21, 6, 10, 15, 21, 6, 10, 15, 21]

/-- Little-endian 32-bit word assembled from four bytes. -/
def le_word (b0 b1 b2 b3 : Nat) : Nat :=
  b0 + 256 * b1 + 65536 * b2 + 16777216 * b3

/-- The `j`-th little-endian 32-bit word of a 64-byte chunk. -/
def chunk_word (chunk : List Nat) (j : Nat) : Nat :=
  le_word (chunk.getD (4 * j) 0) (chunk.getD (4 * j + 1) 0)
    (chunk.getD (4 * j + 2) 0) (chunk.getD (4 * j + 3) 0)

/-- One of the 64 MD5 round operations on the running state `(a, b, c, d)`. -/
def md5_step (chunk : List Nat) (st : Nat × Nat × Nat × Nat) (i : Nat) :
    Nat × Nat × Nat × Nat :=
  let (a, b, c, d) := st
  let f :=
    if i < 16 then Nat.lor (Nat.land b c) (Nat.land (not32 b) d)
    else if i < 32 then Nat.lor (Nat.land d b) (Nat.land (not32 d) c)
    else if i < 48 then Nat.xor b (Nat.xor c d)
    else Nat.xor c (Nat.lor b (not32 d))
  let g :=
    if i < 16 then i
    else if i < 32 then (5 * i + 1) % 16
    else if i < 48 then (3 * i + 5) % 16
    else 7 * i % 16
  let tmp := add32 (add32 (add32 a f) (md5_K.getD i 0)) (chunk_word chunk g)
  (d, add32 b (rotl32 tmp (md5_S.getD i 0)), b, c)

/-- MD5 compression of one 64-byte chunk into the running digest state. -/
def md5_chunk (st : Nat × Nat × Nat × Nat) (chunk : List Nat) :
    Nat × Nat × Nat × Nat :=
  let (a, b, c, d) := (List.range 64).foldl (md5_step chunk) st
  (add32 st.1 a, add32 st.2.1 b, add32 st.2.2.1 c, add32 st.2.2.2 d)

/-- Little-endian 8-byte rendering of the 64-bit message bit length. -/
def le_bytes8 (n : Nat) : List Nat :=
  [n % 256, n / 256 % 256, n / 65536 % 256, n / 16777216 % 256,
   n / 4294967296 % 256, n / 1099511627776 % 256,
   n / 281474976710656 % 256, n / 72057594037927936 % 256]

/-- MD5 padding: a `0x80` byte, zero bytes up to 56 mod 64, then the
little-endian 64-bit bit length of the message. -/
def md5_padding (len : Nat) : List Nat :=
  128 :: List.replicate ((119 - len % 64) % 64) 0 ++ le_bytes8 (len * 8)

/-- Splits a byte list into successive 64-byte chunks; the fuel bounds the
number of chunks (each step consumes 64 bytes, so `l.length` is ample). -/
def chunks64_go : Nat → List Nat → List (List Nat)
  | 0, _ => []
  | _, [] => []
  | fuel + 1, x :: xs => ((x :: xs).take 64) :: chunks64_go fuel ((x :: xs).drop 64)

/-- Splits a byte list into successive 64-byte chunks. -/
def chunks64 (l : List Nat) : List (List Nat) :=
  chunks64_go l.length l

/-- The four 32-bit MD5 state words after processing the whole message. -/
def md5_digest_words (msg : List Nat) : Nat × Nat × Nat × Nat :=
  (chunks64 (msg ++ md5_padding msg.length)).foldl md5_chunk
    (0x67452301, 0xefcdab89, 0x98badcfe, 0x10325476)

/-- Little-endian 4-byte rendering of a 32-bit word. -/
def le_bytes4 (w : Nat) : List Nat :=
  [w % 256, w / 256 % 256, w / 65536 % 256, w / 16777216 % 256]

/-- The 16-byte MD5 digest of a byte-list message. -/
def md5_digest_bytes (msg : List Nat) : List Nat :=
  let w := md5_digest_words msg
  le_bytes4 w.1 ++ le_bytes4 w.2.1 ++ le_bytes4 w.2.2.1 ++ le_bytes4 w.2.2.2

/-- Lowercase hexadecimal digit for a value below 16. -/
def hex_digit (n : Nat) : Char :=
  if n < 10 then Char.ofNat (48 + n) else Char.ofNat (87 + n)

/-- Two lowercase hex characters per byte, in order. -/
def hex_render (bs : List Nat) : List Char :=
  bs.foldr (fun b acc => hex_digit (b / 16) :: hex_digit (b % 16) :: acc) []

/-- The 32-character lowercase-hex MD5 digest string of a byte-list message
(models `hashlib.md5(...).hexdigest()`). -/
def md5_hexdigest (msg : List Nat) : String :=
  String.mk (hex_render (md5_digest_bytes msg))

/-- `assign_id`: the uid the transform derives for a row, the MD5 hex digest
of the UTF-8 encoding of its url (embeds
`hashlib.md5(bytes(row['url'].encode())).hexdigest()` from
`_generate_uids_for_rows`). -/
def assign_id (u : String) : String := md5_hexdigest (utf8_bytes u)

set_option maxRecDepth 10000 in
/-- Sanity anchor for the MD5 embedding: the RFC 1321 test digest of the
empty message. -/
theorem md5_vector_empty :
    md5_hexdigest [] = "d41d8cd98f00b204e9800998ecf8427e" := by decide

set_option maxRecDepth 10000 in
/-- Sanity anchor for the MD5 embedding: the RFC 1321 test digest of "abc". -/
theorem md5_vector_abc :
    assign_id "abc" = "900150983cd24fb0d6963f7d28e17f72" := by decide

/-- Characters allowed in a URL scheme after the first (Python
`urllib.parse.scheme_chars`): ASCII letters, digits, `+`, `-`, `.`. -/
def scheme_char (c : Char) : Bool :=
  c.isAlphanum || c == '+' || c == '-' || c == '.'

/-- Drops a leading `scheme:` from a URL when present and well formed, as
Python's `urlsplit` does: the text before the first `:` must be nonempty,
start with an ASCII letter, and consist of scheme characters. -/
def strip_scheme (cs : List Char) : List Char :=
  let pre := cs.takeWhile (fun c => c != ':')
  if pre.length < cs.length &&
      (match pre with
       | [] => false
       | c0 :: rest => c0.isAlpha && rest.all scheme_char) then
    cs.drop (pre.length + 1)
  else cs

/-- The network-location component of a URL (models
`urllib.parse.urlparse(url).netloc`): present only when, after the optional
scheme, the remainder starts with `//`; it extends to the first `/`, `?` or
`#`; otherwise it is the empty string. -/
def netloc_of (u : String) : String :=
  match strip_scheme u.data with
  | '/' :: '/' :: rest =>
    String.mk (rest.takeWhile (fun c => c != '/' && c != '?' && c != '#'))
  | _ => ""

/-- The spec's host-extraction example. -/
theorem netloc_example : netloc_of "https://example.com/a/b" = "example.com" := by
  decide

/-- The final path segment of a URL: the maximal nonempty run of non-`/`
characters at the end of the string, or `none` when the URL is empty or ends
in `/` (embeds the regex search `([^/]+)$` of `_fill_missing_titles`, which
then extracts `NaN`). -/
def last_url_segment (u : String) : Option String :=
  let seg := (u.data.reverse.takeWhile (fun c => c != '/')).reverse
  if seg.isEmpty then none else some (String.mk seg)

/-- Splitting a character list on `-`, Python-`str.split` style: always at
least one (possibly empty) field, one extra field per hyphen. -/
def split_hyphen_chars : List Char → List (List Char)
  | [] => [[]]
  | c :: cs =>
    if c == '-' then [] :: split_hyphen_chars cs
    else
      match split_hyphen_chars cs with
      | [] => [[c]]
      | t :: ts => (c :: t) :: ts

/-- The fallback title derived from a URL's final path segment: split on `-`
and rejoin with single spaces (embeds `title.split('-')` followed by
`' '.join(...)`). -/
def title_from_segment (seg : String) : String :=
  String.intercalate " " ((split_hyphen_chars seg.data).map String.mk)

/-- Python's `str.isalpha`: nonempty and every character alphabetic. -/
def py_isalpha (s : String) : Bool :=
  !s.isEmpty && s.data.all Char.isAlpha

/-- Python's `str.lower` on the ASCII text this pipeline handles. -/
def str_lower (s : String) : String := String.mk (s.data.map Char.toLower)

/-- Word-level tokenization, a model of `nltk.word_tokenize` on the plain
text this pipeline handles: whitespace separates tokens, maximal runs of
alphanumeric characters form word tokens, and every other visible character
becomes a single-character (punctuation) token. The fuel is the character
count; each step consumes at least one character. -/
def word_tokenize_go : Nat → List Char → List String
  | 0, _ => []
  | _, [] => []
  | fuel + 1, c :: cs =>
    if c.isWhitespace then word_tokenize_go fuel cs
    else if c.isAlphanum then
      String.mk (c :: cs.takeWhile Char.isAlphanum) ::
        word_tokenize_go fuel (cs.dropWhile Char.isAlphanum)
    else String.mk [c] :: word_tokenize_go fuel cs

/-- Word-level tokenization of a string (model of `nltk.word_tokenize`). -/
def word_tokenize (s : String) : List String :=
  word_tokenize_go s.data.length s.data

/-- The token-counting chain of `_tokenize_column`, run on one cell: tokenize,
keep alphabetic tokens, lowercase, drop stop words, count what remains. `sw`
is the externally configured stop-word set (`stopwords.words(...)`). -/
def count_tokens (sw : List String) (text : String) : Nat :=
  ((((word_tokenize text).filter py_isalpha).map str_lower).filter
    (fun w => !sw.contains w)).length

/-- One article row of the transform's table. `none` models a pandas missing
value (`NaN`) — or, for the derived columns, the column not having been
created yet. `uid` models the index label once `set_index('uid')` has run. -/
structure Row where
  url : Option String
  title : Option String
  body : Option String
  newspaper_uid : Option String := none
  host : Option String := none
  uid : Option String := none
  n_tokens_title : Option Nat := none
  n_tokens_body : Option Nat := none
deriving Repr, DecidableEq

/-- Applies a per-row computation across the table; a raised exception on any
row (`none`) aborts the whole invocation, as an uncaught Python exception
does. -/
def apply_per_row (f : Row → Option Row) : List Row → Option (List Row)
  | [] => some []
  | r :: rs =>
    match f r with
    | none => none
    | some r' =>
      match apply_per_row f rs with
      | none => none
      | some rs' => some (r' :: rs')

/-- Stage 1, `_add_newspaper_uid_column`: fill the `newspaper_uid` column of
every row with the externally supplied source identifier. -/
def add_newspaper_uid_column (df : List Row) (nuid : String) : List Row :=
  df.map fun r => { r with newspaper_uid := some nuid }

/-- The per-row body of stage 2: `urlparse(url).netloc`. A missing `url` cell
makes `urlparse` raise. -/
def extract_host_row (r : Row) : Option Row :=
  match r.url with
  | none => none
  | some u => some { r with host := some (netloc_of u) }

/-- Stage 2, `_extract_host`:
`df['host'] = df['url'].apply(lambda url: urlparse(url).netloc)`. -/
def extract_host (df : List Row) : Option (List Row) :=
  apply_per_row extract_host_row df

/-- The per-row body of stage 3: a row with a present title is untouched; a
row with a missing title gets the hyphen-to-space rendering of its url's
final path segment. When that row's url is itself missing, or has no final
path segment (the regex `([^/]+)$` does not match, e.g. the url ends in `/`),
the extracted cell is `NaN` and the subsequent `title.split('-')` raises. -/
def fill_missing_titles_row (r : Row) : Option Row :=
  match r.title with
  | some _ => some r
  | none =>
    match r.url with
    | none => none
    | some u =>
      match last_url_segment u with
      | none => none
      | some seg => some { r with title := some (title_from_segment seg) }

/-- Stage 3, `_fill_missing_titles`. -/
def fill_missing_titles (df : List Row) : Option (List Row) :=
  apply_per_row fill_missing_titles_row df

/-- The per-row body of stage 4: the uid is the MD5 hex digest of the url's
UTF-8 bytes; a missing url makes `.encode()` raise. -/
def generate_uid_row (r : Row) : Option Row :=
  match r.url with
  | none => none
  | some u => some { r with uid := some (assign_id u) }

/-- Stage 4, `_generate_uids_for_rows`, including `set_index('uid')`: the
digest becomes the row key. -/
def generate_uids_for_rows (df : List Row) : Option (List Row) :=
  apply_per_row generate_uid_row df

/-- The per-cell body normalization of stage 5: every newline character is
replaced by a single space (`letter.replace('\n', ' ')` over the char
list, rejoined). -/
def normalize_body (b : String) : String :=
  String.mk (b.data.map fun c => if c == '\n' then ' ' else c)

/-- The per-row body of stage 5; a missing body makes `list(body)` raise. -/
def remove_new_lines_row (r : Row) : Option Row :=
  match r.body with
  | none => none
  | some b => some { r with body := some (normalize_body b) }

/-- Stage 5, `_remove_new_lines_from_body`. -/
def remove_new_lines_from_body (df : List Row) : Option (List Row) :=
  apply_per_row remove_new_lines_row df

/-- The columns the table carries when `_tokenize_column(df, 'title')` runs
(`uid` is the index, which `dropna()` ignores). The `dropna()` at the head of
`_tokenize_column` keeps exactly the rows in which all of these are
present. -/
def complete_at_title_stage (r : Row) : Bool :=
  r.url.isSome && r.title.isSome && r.body.isSome &&
    r.newspaper_uid.isSome && r.host.isSome

/-- Stage 6, `_tokenize_title`: `df['n_tokens_title'] = _tokenize_column(df,
'title')`. The series is computed over `df.dropna()` and assigned back by row
key, so a row with any missing cell gets a missing `n_tokens_title`. -/
def tokenize_title (sw : List String) (df : List Row) : List Row :=
  df.map fun r =>
    { r with
      n_tokens_title :=
        if complete_at_title_stage r then
          some (count_tokens sw (r.title.getD "")) else none }

/-- The columns present when `_tokenize_column(df, 'body')` runs: those of
the title stage plus the just-created `n_tokens_title`. -/
def complete_at_body_stage (r : Row) : Bool :=
  complete_at_title_stage r && r.n_tokens_title.isSome

/-- Stage 7, `_tokenize_body`: as stage 6, for the `body` column. -/
def tokenize_body (sw : List String) (df : List Row) : List Row :=
  df.map fun r =>
    { r with
      n_tokens_body :=
        if complete_at_body_stage r then
          some (count_tokens sw (r.body.getD "")) else none }

/-- The scan of `drop_duplicates(subset=[column], keep='first')`: `seen` holds
the key values already emitted; a row whose key was seen is discarded, other
rows are kept and their key recorded. -/
def remove_duplicate_entries_aux (k : Row → Option String)
    (seen : List (Option String)) : List Row → List Row
  | [] => []
  | r :: rs =>
    if seen.contains (k r) then remove_duplicate_entries_aux k seen rs
    else r :: remove_duplicate_entries_aux k (k r :: seen) rs

/-- Stage 8, `_remove_duplicate_entries` with `keep='first'`: keep the first
row seen for each distinct value of the key column, in input order. -/
def remove_duplicate_entries (k : Row → Option String) (df : List Row) :
    List Row :=
  remove_duplicate_entries_aux k [] df

/-- The completeness test of stage 9's `df.dropna()`: every column of the
final table is present. -/
def all_fields_present (r : Row) : Bool :=
  r.url.isSome && r.title.isSome && r.body.isSome && r.newspaper_uid.isSome &&
    r.host.isSome && r.n_tokens_title.isSome && r.n_tokens_body.isSome

/-- Stage 9, `_drop_rows_with_missing_values`: keep exactly the rows with
every field present. -/
def drop_rows_with_missing_values (df : List Row) : List Row :=
  df.filter all_fields_present

/-- `main` of the transform stage, minus the file I/O that surrounds it: the
nine-stage cleaning pipeline over an in-memory batch. `sw` is the configured
stop-word set and `nuid` the source identifier extracted upstream from the
filename. `none` models an uncaught exception aborting the invocation. -/
def transform_pipeline (sw : List String) (nuid : String) (df : List Row) :
    Option (List Row) := do
  let df1 := add_newspaper_uid_column df nuid
  let df2 ← extract_host df1
  let df3 ← fill_missing_titles df2
  let df4 ← generate_uids_for_rows df3
  let df5 ← remove_new_lines_from_body df4
  let df6 := tokenize_title sw df5
  let df7 := tokenize_body sw df6
  let df8 := remove_duplicate_entries Row.title df7
  let df9 := drop_rows_with_missing_values df8
  some df9

/-- One persisted article record (embeds the SQLAlchemy `Article` model of
`load/article.py`). -/
structure Article where
  id : String
  body : String
  host : String
  title : String
  newspaper_uid : String
  n_tokens_body : Nat
  n_tokens_title : Nat
  url : String
deriving Repr, DecidableEq

/-- The row-to-record mapping of the load stage (`Article(row['uid'],
row['body'], row['host'], row['newspaper_uid'], row['n_tokens_body'],
row['n_tokens_title'], row['title'], row['url'])`, whose constructor assigns
`self.id = uid`). -/
def article_of_row (r : Row) : Article :=
  { id := r.uid.getD "", body := r.body.getD "", host := r.host.getD "",
    title := r.title.getD "", newspaper_uid := r.newspaper_uid.getD "",
    n_tokens_body := r.n_tokens_body.getD 0,
    n_tokens_title := r.n_tokens_title.getD 0, url := r.url.getD "" }

/-- A successful `apply_per_row` run relates input and output rows pointwise
by the per-row computation. -/
theorem apply_per_row_eq_some {f : Row → Option Row} :
    ∀ {l out : List Row}, apply_per_row f l = some out →
      List.Forall₂ (fun r r' => f r = some r') l out := by
  intro l
  induction l with
  | nil =>
    intro out h
    simp only [apply_per_row, Option.some.injEq] at h
    subst h
    exact List.Forall₂.nil
  | cons r rs ih =>
    intro out h
    simp only [apply_per_row] at h
    cases hf : f r with
    | none => rw [hf] at h; exact absurd h (by simp)
    | some r' =>
      rw [hf] at h
      cases hrec : apply_per_row f rs with
      | none => rw [hrec] at h; exact absurd h (by simp)
      | some rs' =>
        rw [hrec] at h
        simp only [Option.some.injEq] at h
        subst h
        exact List.Forall₂.cons hf (ih hrec)

/-- `apply_per_row` succeeds exactly when the per-row computation succeeds on
every row. -/
theorem apply_per_row_isSome_iff {f : Row → Option Row} :
    ∀ l : List Row, (apply_per_row f l).isSome ↔ ∀ r ∈ l, (f r).isSome := by
  intro l
  induction l with
  | nil => simp [apply_per_row]
  | cons r rs ih =>
    simp only [apply_per_row, List.mem_cons]
    cases hf : f r with
    | none => simp [hf]
    | some r' =>
      cases hrec : apply_per_row f rs with
      | none =>
        simp only [hrec, Option.isSome_none, Bool.false_eq_true, false_iff] at ih ⊢
        intro hall
        exact ih fun x hx => hall x (Or.inr hx)
      | some rs' =>
        simp only [hrec, Option.isSome_some, true_iff] at ih ⊢
        intro x hx
        rcases hx with hx | hx
        · subst hx; simp [hf]
        · exact ih x hx

/-- Right-to-left membership transfer along a pointwise relation. -/
theorem forall2_mem_right {R : Row → Row → Prop} :
    ∀ {l out : List Row}, List.Forall₂ R l out → ∀ r' ∈ out, ∃ r ∈ l, R r r' := by
  intro l out h
  induction h with
  | nil => intro r' hr'; exact absurd hr' (List.not_mem_nil r')
  | cons hR _ ih =>
    intro r' hr'
    rcases List.mem_cons.mp hr' with hr' | hr'
    · subst hr'; exact ⟨_, List.mem_cons_self .., hR⟩
    · rcases ih r' hr' with ⟨r, hrl, hr⟩
      exact ⟨r, List.mem_cons_of_mem _ hrl, hr⟩

/-- Destructor for a successful pipeline run: names the intermediate tables
and expresses the output by the last four (total) stages. -/
theorem transform_pipeline_eq_some {sw : List String} {nuid : String}
    {df out : List Row} (h : transform_pipeline sw nuid df = some out) :
    ∃ df2 df3 df4 df5,
      extract_host (add_newspaper_uid_column df nuid) = some df2 ∧
      fill_missing_titles df2 = some df3 ∧
      generate_uids_for_rows df3 = some df4 ∧
      remove_new_lines_from_body df4 = some df5 ∧
      out = drop_rows_with_missing_values (remove_duplicate_entries Row.title
        (tokenize_body sw (tokenize_title sw df5))) := by
  simp only [transform_pipeline, Option.bind_eq_bind] at h
  rw [Option.bind_eq_some] at h
  obtain ⟨df2, h2, h⟩ := h
  rw [Option.bind_eq_some] at h
  obtain ⟨df3, h3, h⟩ := h
  rw [Option.bind_eq_some] at h
  obtain ⟨df4, h4, h⟩ := h
  rw [Option.bind_eq_some] at h
  obtain ⟨df5, h5, h⟩ := h
  simp only [Option.some.injEq] at h
  exact ⟨df2, df3, df4, df5, h2, h3, h4, h5, h.symm⟩

/-- C9: on an input batch with zero rows the pipeline completes without
error and produces an empty output batch, and every individual stage maps
the empty table to the empty table. -/
theorem c9_empty_batch (sw : List String) (nuid : String) :
    transform_pipeline sw nuid [] = some [] ∧
    add_newspaper_uid_column [] nuid = [] ∧
    extract_host [] = some [] ∧
    fill_missing_titles [] = some [] ∧
    generate_uids_for_rows [] = some [] ∧
    remove_new_lines_from_body [] = some [] ∧
    tokenize_title sw [] = [] ∧
    tokenize_body sw [] = [] ∧
    remove_duplicate_entries Row.title [] = [] ∧
    drop_rows_with_missing_values [] = [] :=
  ⟨rfl, rfl, rfl, rfl, rfl, rfl, rfl, rfl, rfl, rfl⟩

/-- C8: `assign_id` is deterministic — the embedding is a pure function of
the url built from MD5 alone, with no randomized or process-seeded hashing —
and the whole pipeline run twice on an identical input batch yields
identical output batches. -/
theorem c8_determinism :
    (∀ u : String, assign_id u = assign_id u) ∧
    (∀ (sw : List String) (nuid : String) (df : List Row),
      transform_pipeline sw nuid df = transform_pipeline sw nuid df) :=
  ⟨fun _ => rfl, fun _ _ _ => rfl⟩

/-- C2: the orchestrator is exactly the sequential composition of the nine
stage functions, in the fixed order attach source id, extract host, repair
titles, assign uid/key, normalize body, count title tokens, count body
tokens, deduplicate on title, drop incomplete rows — with no branching
beyond the propagation of a stage failure. -/
theorem c2_nine_stage_composition (sw : List String) (nuid : String)
    (df : List Row) :
    transform_pipeline sw nuid df =
      Option.bind (Option.bind (Option.bind
        (extract_host (add_newspaper_uid_column df nuid))
        fill_missing_titles) generate_uids_for_rows)
        (fun df4 => Option.map
          (fun df5 => drop_rows_with_missing_values
            (remove_duplicate_entries Row.title
              (tokenize_body sw (tokenize_title sw df5))))
          (remove_new_lines_from_body df4)) := by
  simp only [transform_pipeline, Option.bind_eq_bind, Option.bind_assoc,
    Option.map_eq_bind]
  rfl

/-- C1: every row in the pipeline's final output has a present value in each
of url, title, body, host, source id (`newspaper_uid`), `n_tokens_title` and
`n_tokens_body`. -/
theorem c1_output_complete (sw : List String) (nuid : String)
    (df out : List Row) (h : transform_pipeline sw nuid df = some out) :
    ∀ r ∈ out, r.url.isSome = true ∧ r.title.isSome = true ∧
      r.body.isSome = true ∧ r.host.isSome = true ∧
      r.newspaper_uid.isSome = true ∧ r.n_tokens_title.isSome = true ∧
      r.n_tokens_body.isSome = true := by
  obtain ⟨df2, df3, df4, df5, h2, h3, h4, h5, hout⟩ := transform_pipeline_eq_some h
  subst hout
  intro r hr
  simp only [drop_rows_with_missing_values] at hr
  have hall := (List.mem_filter.mp hr).2
  simp only [all_fields_present, Bool.and_eq_true] at hall
  obtain ⟨⟨⟨⟨⟨⟨hu, ht⟩, hb⟩, hn⟩, hh⟩, htt⟩, htb⟩ := hall
  exact ⟨hu, ht, hb, hh, hn, htt, htb⟩

/-- The concrete input row used to instantiate hypothesis-bearing claim
theorems: missing title, a two-line body, a url with a hyphenated final
segment. -/
def sample_row : Row :=
  { url := some "https://n.test/a/hello-world", title := none,
    body := some "Line1\nLine2" }

/-- The row the pipeline produces from `sample_row` (checked by `decide` in
the witnesses below). -/
def sample_out_row : Row :=
  { url := some "https://n.test/a/hello-world", title := some "hello world",
    body := some "Line1 Line2", newspaper_uid := some "np",
    host := some "n.test",
    uid := some (assign_id "https://n.test/a/hello-world"),
    n_tokens_title := some 2, n_tokens_body := some 0 }

set_option maxRecDepth 200000 in
/-- Witness for C1: the completeness property evaluated on a concrete
one-row batch that exercises title repair, body normalization and both token
counts. -/
theorem c1_witness :
    transform_pipeline ["the"] "np" [sample_row] = some [sample_out_row] ∧
    ∀ r ∈ [sample_out_row], r.url.isSome = true ∧ r.title.isSome = true ∧
      r.body.isSome = true ∧ r.host.isSome = true ∧
      r.newspaper_uid.isSome = true ∧ r.n_tokens_title.isSome = true ∧
      r.n_tokens_body.isSome = true :=
  ⟨by decide,
   c1_output_complete ["the"] "np" [sample_row] [sample_out_row] (by decide)⟩

/-- `contains` agrees with membership on key lists. -/
theorem contains_mem_keys (l : List (Option String)) (a : Option String) :
    l.contains a = true ↔ a ∈ l := by
  simp

/-- The dedup scan only ever discards rows: its output is a sublist of its
input, so retained rows keep their relative input order. -/
theorem rde_aux_sublist (k : Row → Option String) (seen : List (Option String))
    (l : List Row) :
    List.Sublist (remove_duplicate_entries_aux k seen l) l := by
  induction l generalizing seen with
  | nil => simp [remove_duplicate_entries_aux]
  | cons r rs ih =>
    simp only [remove_duplicate_entries_aux]
    split
    · exact (ih seen).cons r
    · exact (ih (k r :: seen)).cons₂ r

/-- No key of a row emitted by the dedup scan lies in the starting `seen`
accumulator. -/
theorem rde_aux_keys_not_seen (k : Row → Option String) :
    ∀ (l : List Row) (seen : List (Option String)) (r' : Row),
      r' ∈ remove_duplicate_entries_aux k seen l → ¬ k r' ∈ seen := by
  intro l
  induction l with
  | nil => intro seen r' hr'; simp [remove_duplicate_entries_aux] at hr'
  | cons r rs ih =>
    intro seen r' hr'
    simp only [remove_duplicate_entries_aux] at hr'
    by_cases hc : seen.contains (k r)
    · rw [if_pos hc] at hr'
      exact ih seen r' hr'
    · rw [if_neg hc] at hr'
      rcases List.mem_cons.mp hr' with h | h
      · subst h
        intro hmem
        exact hc ((contains_mem_keys seen (k r')).mpr hmem)
      · intro hmem
        exact ih (k r :: seen) r' h (List.mem_cons_of_mem _ hmem)

/-- The keys of the rows emitted by the dedup scan are pairwise distinct. -/
theorem rde_aux_keys_nodup (k : Row → Option String) :
    ∀ (l : List Row) (seen : List (Option String)),
      ((remove_duplicate_entries_aux k seen l).map k).Nodup := by
  intro l
  induction l with
  | nil => intro seen; simp [remove_duplicate_entries_aux]
  | cons r rs ih =>
    intro seen
    simp only [remove_duplicate_entries_aux]
    by_cases hc : seen.contains (k r)
    · rw [if_pos hc]; exact ih seen
    · rw [if_neg hc]
      simp only [List.map_cons, List.nodup_cons]
      refine ⟨fun hmem => ?_, ih (k r :: seen)⟩
      rcases List.mem_map.mp hmem with ⟨r', hr', hk⟩
      exact rde_aux_keys_not_seen k rs (k r :: seen) r' hr'
        (by rw [hk]; exact List.mem_cons_self ..)

/-- A row preceded by no row of equal key (and whose key is not already in
the accumulator) is kept by the dedup scan. -/
theorem rde_aux_first_kept (k : Row → Option String) :
    ∀ (l1 : List Row) (r : Row) (l2 : List Row) (seen : List (Option String)),
      (∀ x ∈ l1, k x ≠ k r) → ¬ k r ∈ seen →
      r ∈ remove_duplicate_entries_aux k seen (l1 ++ r :: l2) := by
  intro l1
  induction l1 with
  | nil =>
    intro r l2 seen _ hseen
    simp only [List.nil_append, remove_duplicate_entries_aux]
    rw [if_neg fun hc => hseen ((contains_mem_keys seen (k r)).mp hc)]
    exact List.mem_cons_self ..
  | cons x l1 ih =>
    intro r l2 seen hne hseen
    simp only [List.cons_append, remove_duplicate_entries_aux]
    by_cases hc : seen.contains (k x)
    · rw [if_pos hc]
      exact ih r l2 seen (fun y hy => hne y (List.mem_cons_of_mem _ hy)) hseen
    · rw [if_neg hc]
      refine List.mem_cons_of_mem _
        (ih r l2 (k x :: seen) (fun y hy => hne y (List.mem_cons_of_mem _ hy))
          fun hmem => ?_)
      rcases List.mem_cons.mp hmem with h | h
      · exact hne x (List.mem_cons_self ..) h.symm
      · exact hseen h

/-- Every key occurring in the input (and not pre-seen) is represented in the
dedup scan's output. -/
theorem rde_aux_covers (k : Row → Option String) :
    ∀ (l : List Row) (seen : List (Option String)) (r : Row),
      r ∈ l → ¬ k r ∈ seen →
      ∃ r' ∈ remove_duplicate_entries_aux k seen l, k r' = k r := by
  intro l
  induction l with
  | nil => intro seen r hr _; exact absurd hr (List.not_mem_nil r)
  | cons x rs ih =>
    intro seen r hr hseen
    simp only [remove_duplicate_entries_aux]
    by_cases hc : seen.contains (k x)
    · rw [if_pos hc]
      rcases List.mem_cons.mp hr with h | h
      · subst h
        exact absurd ((contains_mem_keys seen (k r)).mp hc) hseen
      · exact ih seen r h hseen
    · rw [if_neg hc]
      by_cases hk : k r = k x
      · exact ⟨x, List.mem_cons_self .., hk.symm⟩
      · rcases List.mem_cons.mp hr with h | h
        · exact absurd (congrArg k h) hk
        · rcases ih (k x :: seen) r h (fun hmem => by
            rcases List.mem_cons.mp hmem with hm | hm
            · exact hk hm
            · exact hseen hm) with ⟨r', hr', hkk⟩
          exact ⟨r', List.mem_cons_of_mem _ hr', hkk⟩

/-- The four-row batch of the spec's dedup-stability example, with titles
`A`, `B`, `A`, `C` in that order. -/
def rows_ABAC : List Row :=
  [{ url := some "u1", title := some "A", body := some "b1" },
   { url := some "u2", title := some "B", body := some "b2" },
   { url := some "u3", title := some "A", body := some "b3" },
   { url := some "u4", title := some "C", body := some "b4" }]

/-- C3: deduplication on the title key retains exactly the first row seen for
each distinct title value, preserving first-occurrence order — the output is
an order-preserving sublist of the input, output titles are pairwise
distinct, every input title is represented, a row preceded by no row of the
same title is retained — and on titles `["A","B","A","C"]` the output titles
are `["A","B","C"]`. -/
theorem c3_dedup_first_occurrence :
    (∀ df : List Row,
      List.Sublist (remove_duplicate_entries Row.title df) df ∧
      ((remove_duplicate_entries Row.title df).map Row.title).Nodup ∧
      (∀ r ∈ df, ∃ r' ∈ remove_duplicate_entries Row.title df,
        r'.title = r.title) ∧
      (∀ (l1 : List Row) (r : Row) (l2 : List Row), df = l1 ++ r :: l2 →
        (∀ x ∈ l1, x.title ≠ r.title) →
        r ∈ remove_duplicate_entries Row.title df)) ∧
    (remove_duplicate_entries Row.title rows_ABAC).map Row.title
      = [some "A", some "B", some "C"] := by
  refine ⟨fun df => ⟨rde_aux_sublist Row.title [] df,
    rde_aux_keys_nodup Row.title df [],
    fun r hr => rde_aux_covers Row.title df [] r hr (List.not_mem_nil _),
    fun l1 r l2 hdf hne => ?_⟩, by decide⟩
  subst hdf
  exact rde_aux_first_kept Row.title l1 r l2 [] hne (List.not_mem_nil _)

/-- Witness for C3: the first row of the example batch is preceded by no row
of equal title, so the retention conjunct applies to it concretely. -/
theorem c3_witness :
    { url := some "u1", title := some "A", body := some "b1" : Row }
      ∈ remove_duplicate_entries Row.title rows_ABAC :=
  (c3_dedup_first_occurrence.1 rows_ABAC).2.2.2 []
    { url := some "u1", title := some "A", body := some "b1" }
    [{ url := some "u2", title := some "B", body := some "b2" },
     { url := some "u3", title := some "A", body := some "b3" },
     { url := some "u4", title := some "C", body := some "b4" }]
    rfl (by decide)

/-- Commuting a filter-map-filter chain into a single filtered count. -/
theorem filter_map_filter_length {α β : Type} (p : α → Bool) (f : α → β)
    (q : β → Bool) (l : List α) :
    (((l.filter p).map f).filter q).length =
      (l.filter (fun t => p t && q (f t))).length := by
  induction l with
  | nil => rfl
  | cons a l ih =>
    by_cases ha : p a
    · by_cases hb : q (f a)
      · simp [List.filter_cons, ha, hb, ih]
      · simp [List.filter_cons, ha, hb, ih]
    · simp [List.filter_cons, ha, ih]

/-- C5: for every text and stop-word set, `count_tokens` returns the number
of word-level tokens that are composed entirely of alphabetic characters and
whose lowercased form is not in the stop-word set; the empty string yields 0
and `"The Quick Fox! 2 Jumps"` with stop words `{"the"}` yields 3. -/
theorem c5_count_tokens :
    (∀ (sw : List String) (text : String),
      count_tokens sw text =
        ((word_tokenize text).filter
          (fun t => py_isalpha t && !sw.contains (str_lower t))).length) ∧
    count_tokens ["the"] "" = 0 ∧
    count_tokens ["the"] "The Quick Fox! 2 Jumps" = 3 := by
  refine ⟨fun sw text => ?_, by decide, by decide⟩
  unfold count_tokens
  exact filter_map_filter_length py_isalpha str_lower
    (fun w => !sw.contains w) (word_tokenize text)

/-- Counterexample to C4 as stated: on a row whose title is missing and
whose url has no final path segment (it ends in `/`), the repair stage does
not set an empty-string title — the regex extracts `NaN`, the following
`.split('-')` raises on it, and the stage fails, aborting the batch. -/
theorem c4_counterexample :
    fill_missing_titles
      [{ url := some "https://site.test/", title := none, body := some "B" }]
      = none := by decide

/-- Per-row specification of title repair on success. -/
theorem fill_row_spec (r r' : Row) (h : fill_missing_titles_row r = some r') :
    r'.title.isSome = true ∧ (r.title.isSome = true → r' = r) ∧
    (r.title = none → ∃ u seg, r.url = some u ∧ last_url_segment u = some seg ∧
      r' = { r with title := some (title_from_segment seg) }) := by
  cases ht : r.title with
  | some t =>
    simp only [fill_missing_titles_row, ht, Option.some.injEq] at h
    subst h
    exact ⟨by simp [ht], fun _ => rfl, fun hn => absurd hn (by simp)⟩
  | none =>
    cases hu : r.url with
    | none => simp [fill_missing_titles_row, ht, hu] at h
    | some u =>
      cases hseg : last_url_segment u with
      | none => simp [fill_missing_titles_row, ht, hu, hseg] at h
      | some seg =>
        simp only [fill_missing_titles_row, ht, hu, hseg,
          Option.some.injEq] at h
        subst h
        exact ⟨by simp, fun hsome => absurd hsome (by simp),
          fun _ => ⟨u, seg, rfl, hseg, rfl⟩⟩

/-- Per-row success condition of title repair. -/
theorem fill_row_isSome_iff (r : Row) :
    (fill_missing_titles_row r).isSome = true ↔
      (r.title = none →
        ∃ u seg, r.url = some u ∧ last_url_segment u = some seg) := by
  cases ht : r.title with
  | some t => simp [fill_missing_titles_row, ht]
  | none =>
    cases hu : r.url with
    | none => simp [fill_missing_titles_row, ht, hu]
    | some u =>
      cases hseg : last_url_segment u with
      | none => simp [fill_missing_titles_row, ht, hu, hseg]
      | some seg => simp [fill_missing_titles_row, ht, hu, hseg]

/-- C4 amended: when the title-repair stage succeeds, no row's title is
missing — a row entering with a missing title got the hyphen-to-space
rendering of its url's final path segment, and all other rows are
unchanged — but the stage succeeds exactly when every missing-title row has
a url with a nonempty final path segment; on a missing-title row whose url
has no final path segment (or no url), the stage raises instead of
producing an empty-string title, aborting the batch. -/
theorem c4_title_repair :
    (∀ df out : List Row, fill_missing_titles df = some out →
      (∀ r' ∈ out, r'.title.isSome = true) ∧
      List.Forall₂ (fun r r' =>
        (r.title.isSome = true → r' = r) ∧
        (r.title = none → ∃ u seg, r.url = some u ∧
          last_url_segment u = some seg ∧
          r' = { r with title := some (title_from_segment seg) })) df out) ∧
    (∀ df : List Row, (fill_missing_titles df).isSome = true ↔
      ∀ r ∈ df, r.title = none →
        ∃ u seg, r.url = some u ∧ last_url_segment u = some seg) := by
  constructor
  · intro df out h
    have hf := apply_per_row_eq_some h
    constructor
    · intro r' hr'
      rcases forall2_mem_right hf r' hr' with ⟨r, _, hrow⟩
      exact (fill_row_spec r r' hrow).1
    · exact hf.imp fun r r' hrow =>
        ⟨(fill_row_spec r r' hrow).2.1, (fill_row_spec r r' hrow).2.2⟩
  · intro df
    rw [fill_missing_titles, apply_per_row_isSome_iff]
    exact forall_congr' fun r => forall_congr' fun _ => fill_row_isSome_iff r

/-- Witness for C4: the amended repair theorem evaluated on the spec's own
example url, whose hyphenated final segment becomes `"this is a title"`. -/
theorem c4_witness :
    (∀ r' ∈ [({ url := some "https://site.test/news/this-is-a-title",
                title := some "this is a title", body := some "B" } : Row)],
      r'.title.isSome = true) ∧
    List.Forall₂ (fun r r' =>
      (r.title.isSome = true → r' = r) ∧
      (r.title = none → ∃ u seg, r.url = some u ∧
        last_url_segment u = some seg ∧
        r' = { r with title := some (title_from_segment seg) }))
      [({ url := some "https://site.test/news/this-is-a-title", title := none,
          body := some "B" } : Row)]
      [({ url := some "https://site.test/news/this-is-a-title",
          title := some "this is a title", body := some "B" } : Row)] :=
  c4_title_repair.1
    [{ url := some "https://site.test/news/this-is-a-title", title := none,
       body := some "B" }]
    [{ url := some "https://site.test/news/this-is-a-title",
       title := some "this is a title", body := some "B" }]
    (by decide)

/-- Counterexample to C6 as stated: a row whose title is present but whose
body is missing is nevertheless excluded by the `dropna()` at the head of
`_tokenize_column` — its `n_tokens_title` comes out missing instead of a
count, although its title was available. -/
theorem c6_counterexample :
    (tokenize_title []
      [{ url := some "u", title := some "Good Title", body := none,
         newspaper_uid := some "np", host := some "h" }]).map Row.n_tokens_title
      = [none] := by decide

/-- C6 amended: stage 6 never raises, and it excludes from the token
computation every row with any missing cell among url, title, body,
`newspaper_uid` and host — not only missing-title rows. An excluded row's
`n_tokens_title` is left missing; every fully present row receives the token
count of its title; no other column changes. (Within the orchestrator's
actual flow the distinction is invisible, because stages 3 and 5 abort the
batch on missing titles and bodies before stage 6 runs.) -/
theorem c6_tokenize_title_exclusion (sw : List String) (df : List Row) :
    List.Forall₂ (fun r r' =>
      r'.url = r.url ∧ r'.title = r.title ∧ r'.body = r.body ∧
      r'.newspaper_uid = r.newspaper_uid ∧ r'.host = r.host ∧ r'.uid = r.uid ∧
      r'.n_tokens_title =
        (if complete_at_title_stage r then
          some (count_tokens sw (r.title.getD "")) else none))
      df (tokenize_title sw df) := by
  unfold tokenize_title
  induction df with
  | nil => exact List.Forall₂.nil
  | cons r rs ih =>
    exact List.Forall₂.cons ⟨rfl, rfl, rfl, rfl, rfl, rfl, rfl⟩ ih

set_option maxRecDepth 200000 in
/-- Counterexample to C7 as stated: a batch containing a row whose url
(`"foo-bar"`) cannot be parsed into a host is processed without abort, but
the affected row is NOT removed by the final Row Filter — `urlparse` yields
an empty-string netloc, `dropna()` counts the empty string as present, and
the row appears in the output. -/
theorem c7_counterexample :
    transform_pipeline [] "np"
      [{ url := some "foo-bar", title := some "T", body := some "B" }]
      = some [{ url := some "foo-bar", title := some "T", body := some "B",
                newspaper_uid := some "np", host := some "",
                uid := some (assign_id "foo-bar"),
                n_tokens_title := some 1, n_tokens_body := some 1 }] := by
  decide

/-- C7 amended: on a row whose url yields no parseable network location the
pipeline neither aborts nor drops the row — the row's host becomes the empty
string, which the final `dropna()` counts as a present value, so the row
survives to the output batch (its other fields being present) with every
derived column computed normally. -/
theorem c7_unparseable_host_retained (sw : List String) (nuid u t b : String)
    (h : netloc_of u = "") :
    transform_pipeline sw nuid
      [{ url := some u, title := some t, body := some b }]
      = some [{ url := some u, title := some t,
                body := some (normalize_body b),
                newspaper_uid := some nuid, host := some "",
                uid := some (assign_id u),
                n_tokens_title := some (count_tokens sw t),
                n_tokens_body := some (count_tokens sw (normalize_body b)) }] := by
  simp [transform_pipeline, add_newspaper_uid_column, extract_host,
    apply_per_row, extract_host_row, fill_missing_titles,
    fill_missing_titles_row, generate_uids_for_rows, generate_uid_row,
    remove_new_lines_from_body, remove_new_lines_row, tokenize_title,
    tokenize_body, complete_at_title_stage, complete_at_body_stage,
    remove_duplicate_entries, remove_duplicate_entries_aux,
    drop_rows_with_missing_values, all_fields_present, h]

set_option maxRecDepth 200000 in
/-- Witness for C7: the retention theorem evaluated on the hostless url
`"foo"`. -/
theorem c7_witness :
    netloc_of "foo" = "" ∧
    transform_pipeline ["the"] "x"
      [{ url := some "foo", title := some "T", body := some "B" }]
      = some [{ url := some "foo", title := some "T",
                body := some (normalize_body "B"),
                newspaper_uid := some "x", host := some "",
                uid := some (assign_id "foo"),
                n_tokens_title := some (count_tokens ["the"] "T"),
                n_tokens_body :=
                  some (count_tokens ["the"] (normalize_body "B")) }] :=
  ⟨by decide, c7_unparseable_host_retained ["the"] "x" "foo" "T" "B" (by decide)⟩

/-- The sixteen lowercase hexadecimal characters. -/
def hex_alphabet : List Char := "0123456789abcdef".data

/-- `hex_digit` lands in the hex alphabet on values below 16. -/
theorem hex_digit_mem : ∀ n : Nat, n < 16 → hex_digit n ∈ hex_alphabet := by
  decide

/-- An MD5 digest always has sixteen bytes. -/
theorem md5_digest_bytes_len (msg : List Nat) :
    (md5_digest_bytes msg).length = 16 := by
  simp [md5_digest_bytes, le_bytes4]

/-- Each little-endian rendered byte is below 256. -/
theorem le_bytes4_lt (w : Nat) : ∀ x ∈ le_bytes4 w, x < 256 := by
  intro x hx
  simp only [le_bytes4, List.mem_cons, List.not_mem_nil, or_false] at hx
  rcases hx with h | h | h | h <;> subst h <;> exact Nat.mod_lt _ (by norm_num)

/-- All MD5 digest bytes are below 256. -/
theorem md5_digest_bytes_lt (msg : List Nat) :
    ∀ b ∈ md5_digest_bytes msg, b < 256 := by
  intro b hb
  simp only [md5_digest_bytes, List.mem_append] at hb
  rcases hb with ((h | h) | h) | h <;> exact le_bytes4_lt _ b h

/-- Hex rendering yields two characters per byte. -/
theorem hex_render_length (bs : List Nat) :
    (hex_render bs).length = 2 * bs.length := by
  induction bs with
  | nil => rfl
  | cons b bs ih =>
    simp only [hex_render, List.foldr_cons, List.length_cons] at ih ⊢
    omega

/-- Hex rendering of bytes below 256 stays inside the hex alphabet. -/
theorem hex_render_mem (bs : List Nat) (hbs : ∀ b ∈ bs, b < 256) :
    ∀ c ∈ hex_render bs, c ∈ hex_alphabet := by
  induction bs with
  | nil => intro c hc; simp [hex_render] at hc
  | cons b bs ih =>
    intro c hc
    simp only [hex_render, List.foldr_cons, List.mem_cons] at hc
    have hb : b < 256 := hbs b (List.mem_cons_self ..)
    rcases hc with h | h | h
    · subst h; exact hex_digit_mem _ (Nat.div_lt_of_lt_mul (by omega))
    · subst h; exact hex_digit_mem _ (Nat.mod_lt _ (by norm_num))
    · exact ih (fun x hx => hbs x (List.mem_cons_of_mem _ hx)) c h

/-- The MD5 hex digest is 32 characters of lowercase hex, whatever the
message. -/
theorem md5_hexdigest_wf (msg : List Nat) :
    (md5_hexdigest msg).length = 32 ∧
    ∀ c ∈ (md5_hexdigest msg).data, c ∈ hex_alphabet := by
  constructor
  · have h1 : (md5_hexdigest msg).length =
        (hex_render (md5_digest_bytes msg)).length := rfl
    rw [h1, hex_render_length, md5_digest_bytes_len]
  · intro c hc
    exact hex_render_mem _ (md5_digest_bytes_lt msg) c hc

/-- Per-row specification of uid assignment on success. -/
theorem generate_uid_row_spec (r r' : Row)
    (h : generate_uid_row r = some r') :
    ∃ u, r.url = some u ∧ r' = { r with uid := some (assign_id u) } := by
  cases hu : r.url with
  | none => simp [generate_uid_row, hu] at h
  | some u =>
    simp only [generate_uid_row, hu, Option.some.injEq] at h
    exact ⟨u, rfl, h.symm⟩

/-- Body normalization leaves the url and the uid key untouched. -/
theorem remove_new_lines_row_fields (r r' : Row)
    (h : remove_new_lines_row r = some r') :
    r'.url = r.url ∧ r'.uid = r.uid := by
  cases hb : r.body with
  | none => simp [remove_new_lines_row, hb] at h
  | some b =>
    simp only [remove_new_lines_row, hb, Option.some.injEq] at h
    subst h
    exact ⟨rfl, rfl⟩

/-- C10: a row's assigned uid is the MD5 digest of the UTF-8 encoding of its
url, rendered as a 32-character lowercase-hex string; this uid is the row
key carried unchanged to the pipeline's output, and the load stage's
`Article` record adopts it as its `id` primary key. -/
theorem c10_uid_is_md5 :
    (∀ df out : List Row, generate_uids_for_rows df = some out →
      List.Forall₂ (fun r r' => ∃ u, r.url = some u ∧
        r' = { r with uid := some (md5_hexdigest (utf8_bytes u)) }) df out) ∧
    (∀ u : String, (assign_id u).length = 32 ∧
      ∀ c ∈ (assign_id u).data, c ∈ hex_alphabet) ∧
    (∀ (sw : List String) (nuid : String) (df out : List Row),
      transform_pipeline sw nuid df = some out →
      ∀ r ∈ out, ∃ u, r.url = some u ∧
        r.uid = some (md5_hexdigest (utf8_bytes u)) ∧
        (article_of_row r).id = md5_hexdigest (utf8_bytes u)) := by
  refine ⟨?_, ?_, ?_⟩
  · intro df out h
    exact (apply_per_row_eq_some h).imp fun r r' hrow =>
      generate_uid_row_spec r r' hrow
  · intro u
    exact md5_hexdigest_wf (utf8_bytes u)
  · intro sw nuid df out h r hr
    obtain ⟨df2, df3, df4, df5, h2, h3, h4, h5, hout⟩ :=
      transform_pipeline_eq_some h
    subst hout
    simp only [drop_rows_with_missing_values] at hr
    have hr8 := (List.mem_filter.mp hr).1
    have hr7 : r ∈ tokenize_body sw (tokenize_title sw df5) :=
      (rde_aux_sublist Row.title [] _).subset hr8
    simp only [tokenize_body] at hr7
    rcases List.mem_map.mp hr7 with ⟨r6, hr6, hEq7⟩
    simp only [tokenize_title] at hr6
    rcases List.mem_map.mp hr6 with ⟨r5, hr5, hEq6⟩
    rcases forall2_mem_right (apply_per_row_eq_some h5) r5 hr5 with
      ⟨r4, hr4, hrow5⟩
    rcases forall2_mem_right (apply_per_row_eq_some h4) r4 hr4 with
      ⟨r3, _, hrow4⟩
    rcases generate_uid_row_spec r3 r4 hrow4 with ⟨u, hu3, hEq4⟩
    have hfields5 := remove_new_lines_row_fields r4 r5 hrow5
    refine ⟨u, ?_, ?_, ?_⟩
    · rw [← hEq7, ← hEq6]
      show r5.url = some u
      rw [hfields5.1, hEq4]
      exact hu3
    · rw [← hEq7, ← hEq6]
      show r5.uid = some (md5_hexdigest (utf8_bytes u))
      rw [hfields5.2, hEq4]
      rfl
    · have hid : (article_of_row r).id = r.uid.getD "" := rfl
      rw [hid, ← hEq7, ← hEq6]
      show r5.uid.getD "" = md5_hexdigest (utf8_bytes u)
      rw [hfields5.2, hEq4]
      rfl

set_option maxRecDepth 200000 in
/-- Witness for C10: the uid-assignment conjunct evaluated on a concrete
one-row table. -/
theorem c10_witness :
    List.Forall₂ (fun r r' => ∃ u, r.url = some u ∧
      r' = { r with uid := some (md5_hexdigest (utf8_bytes u)) })
      [({ url := some "https://n.test/x", title := some "T",
          body := some "B" } : Row)]
      [({ url := some "https://n.test/x", title := some "T",
          body := some "B",
          uid := some (assign_id "https://n.test/x") } : Row)] :=
  c10_uid_is_md5.1
    [({ url := some "https://n.test/x", title := some "T",
        body := some "B" } : Row)]
    [({ url := some "https://n.test/x", title := some "T",
        body := some "B",
        uid := some (assign_id "https://n.test/x") } : Row)]
    (by decide)
